import Mathlib

/-!
Verification of the progressive EPG aggregation pipeline
(`src/scheduler/index_progressive.js` — the "hobby-optimized" variant that the
file itself contains — together with the serialization and statistics helpers
of `src/scheduler/utils/convert.js` and the AI-enrichment stage of the related
`api/index.js` variant).

The JavaScript is shallowly embedded:
* network calls (`fetch`, the Groq classifier, the TMDB catalog) are modelled
  by explicit oracles describing the response each call would receive;
* `Date.now()` is modelled by an injectable clock `clock : Nat → Int`; the
  n-th clock read of an invocation returns `clock n`;
* JavaScript numbers holding millisecond timestamps are modelled as `Int`;
  the floating-point literals `0.3`, `0.7`, `0.85` that scale the time budget
  and coverage threshold are modelled as the exact rationals 3/10, 7/10,
  85/100, compared by cross-multiplication;
* JavaScript truthiness is embedded explicitly where the source relies on it:
  `null`/`undefined` become `Option.none`, and the falsiness of `0` and of
  the empty string is spelled out at each gate.
-/

namespace EPG

/-- A programme's optional TMDB enrichment bag: the object assigned to
`programme.tmdb` by `enrichWithTMDB`.  `season`, `episode`, `episodeName`,
`overview`, `episodeThumbnail` are only assigned by the episode-detail
branch, hence optional. -/
structure Tmdb where
  showId : Int
  showName : String
  seriesPoster : Option String
  season : Option Int := none
  episode : Option Int := none
  episodeName : Option String := none
  overview : Option String := none
  episodeThumbnail : Option String := none
deriving DecidableEq, Repr

/-- A programme record as produced by `extractProgrammes` and optionally
mutated by `enrichWithTMDB` (field `tmdb`). -/
structure Programme where
  channelId : String
  start : String
  stop : String
  title : String
  description : String
  tmdb : Option Tmdb := none
deriving DecidableEq, Repr

/-- JS truthiness of a nullable number (`null`/`undefined` and `0` are falsy). -/
def numTruthy : Option Int → Bool
  | none => false
  | some n => n != 0

/-- JS truthiness of a nullable string (`null`/`undefined` and `""` are falsy). -/
def strTruthy : Option String → Bool
  | none => false
  | some s => s != ""

/-! ## Programme Extractor (`extractProgrammes`, hobby variant)

The regex loop over the raw XML payload is modelled by a pre-lexed list of
matches: `RawMatch` holds the two top-level capture groups (`start`, `stop`)
and, for the `content` group, the results of the inner `content.match(...)`
calls for `<title>` and `<desc>` (`none` models a null match). -/

/-- One iteration result of the programme regex over the raw payload. -/
structure RawMatch where
  start : String
  stop : String
  titleMatch : Option String
  descMatch : Option String
deriving DecidableEq, Repr

/-- `MAX_PROGRAMMES = 50` — per-channel record ceiling of the hobby variant. -/
def MAX_PROGRAMMES : Nat := 50

/-- Body of the `while` loop of `extractProgrammes`: builds one record from a
match, defaulting a missing title to the sentinel `"Unknown"` and a missing
description to `""`. -/
def recordOfMatch (channelId : String) (m : RawMatch) : Programme :=
  { channelId := channelId
    start := m.start
    stop := m.stop
    title := match m.titleMatch with
      | some t => t.trim
      | none => "Unknown"
    description := match m.descMatch with
      | some d => d.trim
      | none => ""
    tmdb := none }

/-- The `while ((match = regex.exec(xml)) !== null && count < MAX_PROGRAMMES)`
loop, threading the `count` counter. -/
def extractGo (channelId : String) : List RawMatch → Nat → List Programme
  | [], _ => []
  | m :: rest, count =>
    if count < MAX_PROGRAMMES then
      recordOfMatch channelId m :: extractGo channelId rest (count + 1)
    else []

/-- `extractProgrammes(xml, channelId)` of the hobby variant, over the
pre-lexed match list of the payload. -/
def extractProgrammes (ms : List RawMatch) (channelId : String) : List Programme :=
  extractGo channelId ms 0

/-! ## Per-channel fetch (`fetchChannelEPG`, hobby variant)

The upstream HTTP call is modelled by an oracle `net : String → NetResult`
mapping the `epgId` used in the request URL to the outcome the single fetch
of this invocation would observe.  `err` covers a thrown error — including
the `AbortController` firing at `FETCH_TIMEOUT` — and `notOk` a response
with `!response.ok`. -/

/-- Outcome of the upstream `fetch` for one channel. -/
inductive NetResult where
  | err : NetResult
  | notOk : NetResult
  | ok : String → NetResult
deriving DecidableEq, Repr

/-- `startsWithTv cs` holds when `cs` begins with the root marker `<tv`. -/
def startsWithTv : List Char → Bool
  | '<' :: 't' :: 'v' :: _ => true
  | _ => false

/-- `xml.includes('<tv')` — scan for the root marker. -/
def hasTvMarker : List Char → Bool
  | [] => false
  | c :: rest => startsWithTv (c :: rest) || hasTvMarker rest

/-- `fetchChannelEPG(tvgId, epgId)`: `none` models every `return null` path
(thrown error / timeout, non-ok status, payload without the `<tv` marker);
`some (tvgId, xml)` models the `{ tvgId, xml }` success object. -/
def fetchChannelEPG (net : String → NetResult) (tvgId epgId : String) :
    Option (String × String) :=
  match net epgId with
  | .err => none
  | .notOk => none
  | .ok xml => if hasTvMarker xml.toList then some (tvgId, xml) else none

/-! ## Progressive Loader (`loadChannelsProgressively`, hobby variant) -/

/-- Configuration constants of the hobby variant. -/
def BATCH_SIZE : Nat := 5

/-- `CHANNELS_PER_CHUNK = 15`. -/
def CHANNELS_PER_CHUNK : Nat := 15

/-- `FULL_CACHE_DURATION = 30 * 60 * 1000`. -/
def FULL_CACHE_DURATION : Int := 30 * 60 * 1000

/-- `PARTIAL_CACHE_DURATION = 3 * 60 * 1000` (hobby variant). -/
def PART_CACHE_DURATION : Int := 3 * 60 * 1000

/-- `MAX_EXECUTION_TIME = 5000` (hobby variant). -/
def MAX_EXECUTION_TIME : Int := 5000

/-- Channel-level cache TTL: `60 * 60 * 1000` (1 hour), inlined at the
cache-drain check. -/
def CHANNEL_TTL : Int := 60 * 60 * 1000

/-- An entry of the channel-level cache `channelCache`
 (`{ xml, timestamp }`). -/
structure CacheEntry where
  xml : String
  timestamp : Int
deriving DecidableEq, Repr

/-- `channelCache.get(tvgId)` — the `Map` is modelled as an association
list in insertion order. -/
def lookupEntry : List (String × CacheEntry) → String → Option CacheEntry
  | [], _ => none
  | (k, v) :: rest, key => if k = key then some v else lookupEntry rest key

/-- `channelCache.set(tvgId, entry)` — overwrite in place or append. -/
def setEntry : List (String × CacheEntry) → String → CacheEntry →
    List (String × CacheEntry)
  | [], key, v => [(key, v)]
  | (k, v') :: rest, key, v =>
    if k = key then (key, v) :: rest else (k, v') :: setEntry rest key v

/-- One fresh-fetch round: `Promise.all` over one batch.  `issueTime` is the
value of the clock read that immediately guarded issuing the round. -/
structure Round where
  issueTime : Int
  batch : List (String × String)
deriving DecidableEq, Repr

/-- Progressive-loader state: gathered `allResults` (as `(tvgId, xml)`
pairs), the log of issued fetch rounds, the channel-level cache, and the
index of the next clock read. -/
structure LoadState where
  results : List (String × String)
  rounds : List Round
  cache : List (String × CacheEntry)
  idx : Nat
deriving DecidableEq, Repr

/-- `chunksGo n fuel l` splits `l` into consecutive chunks of `n` (the
`slice(i, i + n)` loop), with `fuel ≥ l.length` guaranteeing termination. -/
def chunksGo (n : Nat) : Nat → List α → List (List α)
  | _, [] => []
  | 0, _ :: _ => []
  | fuel + 1, x :: xs => ((x :: xs).take n) :: chunksGo n fuel ((x :: xs).drop n)

/-- Split a list into consecutive chunks of size `n`. -/
def chunksOf (n : Nat) (l : List α) : List (List α) :=
  chunksGo n l.length l

/-- Cache-drain phase: the `for (const [tvgId, epgId] of channelsToFetch)`
loop.  `now` is the loader's single `Date.now()` read taken before the loop;
after each cache hit is pushed, a fresh clock read guards
`Date.now() - startTime > maxTime * 0.3` and breaks the loop. -/
def drain (clock : Nat → Int) (startTime maxTime now : Int) :
    List (String × String) → LoadState → LoadState
  | [], st => st
  | (tvgId, _epgId) :: rest, st =>
    match lookupEntry st.cache tvgId with
    | some cached =>
      if now - cached.timestamp < CHANNEL_TTL then
        let st1 : LoadState := { st with results := st.results ++ [(tvgId, cached.xml)] }
        let t := clock st1.idx
        let st2 : LoadState := { st1 with idx := st1.idx + 1 }
        if 10 * (t - startTime) > 3 * maxTime then st2
        else drain clock startTime maxTime now rest st2
      else drain clock startTime maxTime now rest st
    | none => drain clock startTime maxTime now rest st

/-- Process the settled `Promise.all` of one batch: cache each success under
its `tvgId` (timestamped with the loader's `now`) and push it onto
`allResults`; failed fetches (`null`) are skipped. -/
def processBatch (net : String → NetResult) (now : Int) :
    List (String × String) → LoadState → LoadState
  | [], st => st
  | c :: cb, st =>
    match fetchChannelEPG net c.1 c.2 with
    | some r =>
      processBatch net now cb
        { st with
          cache := setEntry st.cache r.1 { xml := r.2, timestamp := now }
          results := st.results ++ [r] }
    | none => processBatch net now cb st

/-- Inner loop of the fresh-fetch phase: the batches of one chunk.
`lastRead` is the clock value of the read that guarded the next issue; after
each batch a fresh read checks `batchElapsed > maxTime * 0.7` and breaks. -/
def runBatches (net : String → NetResult) (clock : Nat → Int)
    (startTime maxTime now : Int) :
    List (List (String × String)) → Int → LoadState → LoadState
  | [], _, st => st
  | b :: bs, lastRead, st =>
    let st1 : LoadState := { st with rounds := st.rounds ++ [{ issueTime := lastRead, batch := b }] }
    let st2 := processBatch net now b st1
    let t := clock st2.idx
    let st3 : LoadState := { st2 with idx := st2.idx + 1 }
    if 10 * (t - startTime) > 7 * maxTime then st3
    else runBatches net clock startTime maxTime now bs t st3

/-- Outer loop of the fresh-fetch phase: before each chunk a fresh clock
read checks `elapsed > maxTime * 0.7` and breaks; otherwise the chunk is
fetched batch by batch (an inner time break skips only the rest of that
chunk, as in the source, where the outer loop re-checks). -/
def runChunks (net : String → NetResult) (clock : Nat → Int)
    (startTime maxTime now : Int) :
    List (List (String × String)) → LoadState → LoadState
  | [], st => st
  | c :: cs, st =>
    let t := clock st.idx
    let st1 : LoadState := { st with idx := st.idx + 1 }
    if 10 * (t - startTime) > 7 * maxTime then st1
    else
      let st2 := runBatches net clock startTime maxTime now (chunksOf BATCH_SIZE c) t st1
      runChunks net clock startTime maxTime now cs st2

/-- `Object.entries(CHANNEL_MAP).filter(([_, epgId]) => epgId !== null &&
epgId !== '')` — registry channels with a defined upstream id. -/
def channelsToFetch (registry : List (String × Option String)) :
    List (String × String) :=
  registry.filterMap fun c =>
    match c.2 with
    | some epgId => if epgId != "" then some (c.1, epgId) else none
    | none => none

/-- `loadChannelsProgressively(startTime, maxTime)` of the hobby variant.
`registry` stands for the imported `CHANNEL_MAP`, `chCache` for the
module-level `channelCache`, `net` for the upstream, and `clock` for
`Date.now()` (read `n` of this invocation returns `clock n`; read 0 is the
loader's `const now = Date.now()`). -/
def loadChannelsProgressively (registry : List (String × Option String))
    (chCache : List (String × CacheEntry)) (net : String → NetResult)
    (clock : Nat → Int) (startTime maxTime : Int) : LoadState :=
  let chans := channelsToFetch registry
  let now := clock 0
  let st0 : LoadState := { results := [], rounds := [], cache := chCache, idx := 1 }
  let st1 := drain clock startTime maxTime now chans st0
  let remaining := chans.filter fun c => !(st1.results.any fun r => r.1 == c.1)
  runChunks net clock startTime maxTime now (chunksOf CHANNELS_PER_CHUNK remaining) st1

/-! ## Multi-tier response cache (handler, hobby variant) -/

/-- One response-cache slot (`fullCache` / `partialCache`): `data` and
`timestamp` start as `null`. -/
structure CacheSlot where
  data : Option String
  timestamp : Option Int
  channelCount : Nat
  programmeCount : Nat
deriving DecidableEq, Repr

/-- The two module-level response-cache slots (`partC` is the source's
`partialCache`). -/
structure Caches where
  fullC : CacheSlot
  partC : CacheSlot
deriving DecidableEq, Repr

/-- The freshness test `slot.data && slot.timestamp && (now - slot.timestamp
< ttl)` with JS truthiness of the string and the number spelled out. -/
def slotFresh (s : CacheSlot) (ttl now : Int) : Bool :=
  strTruthy s.data && numTruthy s.timestamp &&
    (match s.timestamp with
     | some ts => decide (now - ts < ttl)
     | none => false)

/-- Outcome of the read policy at the top of the main EPG endpoint. -/
inductive ReadOutcome where
  | hitFull : ReadOutcome
  | hitPart : ReadOutcome
  | rebuild : ReadOutcome
deriving DecidableEq, Repr

/-- The read policy of the main endpoint: serve the full tier if fresh, else
the partial tier if fresh, else fall through to a synchronous rebuild. -/
def readCachePolicy (st : Caches) (now : Int) : ReadOutcome :=
  if slotFresh st.fullC FULL_CACHE_DURATION now then .hitFull
  else if slotFresh st.partC PART_CACHE_DURATION now then .hitPart
  else .rebuild

/-- The post-rebuild write policy (`isFullBuild = channelResults.length >=
totalValidChannels * 0.85`): a full build overwrites the full tier and
leaves the partial tier alone, a partial build the converse.  `buildTime`
is the `Date.now()` taken at the write. -/
def classifyAndStore (st : Caches) (nObtained totalValid : Nat)
    (xmltv : String) (statsChannels statsTotal : Nat) (buildTime : Int) : Caches :=
  if (nObtained : ℚ) ≥ (totalValid : ℚ) * (85 / 100) then
    { st with fullC :=
        { data := some xmltv, timestamp := some buildTime
          channelCount := statsChannels, programmeCount := statsTotal } }
  else
    { st with partC :=
        { data := some xmltv, timestamp := some buildTime
          channelCount := statsChannels, programmeCount := statsTotal } }

/-! ## Enrichment pipeline (`analyzeWithAI` result handling and
`enrichWithTMDB`, from the `api/index.js` variants; the TMDB calls and their
control flow are identical in both) -/

/-- One element of the classifier's JSON result array (its per-index
classification object; a `null` array slot is a `none` in the surrounding
list). -/
structure AIResult where
  isSeries : Bool
  showName : String
  season : Option Int := none
  episode : Option Int := none
deriving DecidableEq, Repr

/-- The best match of the TMDB search (`searchData.results?.[0]`). -/
structure TMDBShow where
  id : Int
  name : String
  posterPath : Option String
deriving DecidableEq, Repr

/-- The TMDB episode-details payload. -/
structure EpisodeData where
  name : String
  overview : String
  stillPath : Option String
deriving DecidableEq, Repr

/-- Outcome of one catalog HTTP call: `fail` covers thrown errors/timeouts
and non-ok statuses (the code path is the same). -/
inductive CallOutcome (α : Type) where
  | fail : CallOutcome α
  | ok : α → CallOutcome α
deriving DecidableEq, Repr

/-- The responses the two TMDB calls of one `enrichWithTMDB` invocation
would observe: the search (whose payload may have an empty result list,
hence the inner `Option`) and the episode-details call. -/
structure TMDBEnv where
  search : CallOutcome (Option TMDBShow)
  episode : CallOutcome EpisodeData
deriving DecidableEq, Repr

/-- `TMDB_API_KEY` has a hard-coded non-empty default, so the key is always
configured. -/
def tmdbKeyConfigured : Bool := true

/-- `enrichWithTMDB(programme, aiResult)`, instrumented: the second
component records whether the episode-details call was issued.  The partial
`programme.tmdb = { showId, showName, seriesPoster }` assignment happens as
soon as the search succeeds; the episode fields are only added behind the
`aiResult.season && aiResult.episode` truthiness gate (`null` and `0` are
both falsy).  A failure after the partial assignment returns the programme
with the partial bag, exactly as the mutation-then-catch does in JS. -/
def enrichWithTMDBT (env : TMDBEnv) (programme : Programme)
    (aiResult : AIResult) : Programme × Bool :=
  if !tmdbKeyConfigured || !aiResult.isSeries then (programme, false)
  else
    match env.search with
    | .fail => (programme, false)
    | .ok none => (programme, false)
    | .ok (some sh) =>
      let bag : Tmdb :=
        { showId := sh.id
          showName := sh.name
          seriesPoster := sh.posterPath.map
            (fun pp => "https://image.tmdb.org/t/p/w500" ++ pp) }
      let p1 : Programme := { programme with tmdb := some bag }
      if numTruthy aiResult.season && numTruthy aiResult.episode then
        match env.episode with
        | .fail => (p1, true)
        | .ok epData =>
          let bag2 : Tmdb :=
            { bag with
              season := aiResult.season
              episode := aiResult.episode
              episodeName := some epData.name
              overview := some epData.overview
              episodeThumbnail := epData.stillPath.map
                (fun sp => "https://image.tmdb.org/t/p/w500" ++ sp) }
          ({ p1 with tmdb := some bag2 }, true)
      else (p1, false)

/-- `enrichWithTMDB` proper (the returned programme). -/
def enrichWithTMDB (env : TMDBEnv) (programme : Programme)
    (aiResult : AIResult) : Programme :=
  (enrichWithTMDBT env programme aiResult).1

/-- The merge-back loop over one classifier batch
(`for (let j = 0; j < batch.length && j < aiResults.length; j++) if
(aiResults[j] && aiResults[j].isSeries) enrichWithTMDB(batch[j],
aiResults[j])`): positional, stopping at the shorter of the two lists,
with no length or shape validation.  `envs j` gives the TMDB responses of
the call made at index `j`. -/
def mergeAIResults (envs : Nat → TMDBEnv) :
    List Programme → List (Option AIResult) → Nat → List Programme
  | [], _, _ => []
  | ps, [], _ => ps
  | p :: ps, r :: rs, j =>
    (match r with
     | some a => if a.isSeries then enrichWithTMDB (envs j) p a else p
     | none => p) :: mergeAIResults envs ps rs (j + 1)

/-! ## Listings serializer (`utils/convert.js`) -/

/-- The apostrophe character (spelled via its code point). -/
def aposChar : Char := Char.ofNat 39

/-- `escapeXml(str)`: empty/absent input yields `''`; otherwise the five
reserved markup characters are replaced in the source's order (`&` first). -/
def escapeXml (str : String) : String :=
  if str = "" then ""
  else
    (((((str.replace "&" "&amp;").replace "<" "&lt;").replace ">" "&gt;").replace
        "\"" "&quot;").replace (String.singleton aposChar) "&apos;")

/-- `String(n).padStart(2, '0')`. -/
def padStart2Zero (s : String) : String :=
  if s.length ≥ 2 then s
  else if s.length = 1 then "0" ++ s
  else "00"

/-- `a || b` on strings (first operand if truthy, else second). -/
def jsOrStr (a b : String) : String :=
  if a != "" then a else b

/-- The enriched branch of `buildProgramme` (taken when
`tmdb && tmdb.season && tmdb.episode` is truthy), with the season and
episode numbers `sn`, `en` in hand. -/
def enrichedBody (p : Programme) (t : Tmdb) (sn en : Int) : String :=
  let fullTitle :=
    match t.episodeName with
    | some epn =>
      if epn != "" then t.showName ++ " - " ++ epn else jsOrStr t.showName p.title
    | none => jsOrStr t.showName p.title
  "    <title>" ++ escapeXml fullTitle ++ "</title>\n"
  ++ (match t.episodeName with
      | some epn =>
        if epn != "" then "    <sub-title>" ++ escapeXml epn ++ "</sub-title>\n"
        else ""
      | none => "")
  ++ (match t.overview with
      | some ov =>
        if ov != "" then
          "    <desc>" ++
            escapeXml ("S" ++ toString sn ++ "E" ++ toString en ++ ": " ++ ov) ++
            "</desc>\n"
        else if p.description != "" then
          "    <desc>" ++ escapeXml p.description ++ "</desc>\n"
        else ""
      | none =>
        if p.description != "" then
          "    <desc>" ++ escapeXml p.description ++ "</desc>\n"
        else "")
  ++ "    <episode-num system=\"xmltv_ns\">" ++
      (toString (sn - 1) ++ "." ++ toString (en - 1) ++ ".") ++ "</episode-num>\n"
  ++ "    <episode-num system=\"onscreen\">" ++
      ("S" ++ padStart2Zero (toString sn) ++ "E" ++ padStart2Zero (toString en)) ++
      "</episode-num>\n"
  ++ (match t.episodeThumbnail with
      | some th =>
        if th != "" then "    <icon src=\"" ++ escapeXml th ++ "\" />\n" else ""
      | none => "")
  ++ (match t.seriesPoster with
      | some sp =>
        if sp != "" then "    <image src=\"" ++ escapeXml sp ++ "\" />\n" else ""
      | none => "")
  ++ "    <category>series</category>\n"
  ++ (if t.showId != 0 then
        "    <category>tmdb:tv:" ++ toString t.showId ++ "</category>\n"
      else "")

/-- The plain branch of `buildProgramme` (no enrichment, or enrichment
without both season and episode): title, optional description, and the
series poster when a partial enrichment bag carries one. -/
def plainBody (p : Programme) : String :=
  "    <title>" ++ escapeXml p.title ++ "</title>\n"
  ++ (if p.description != "" then
        "    <desc>" ++ escapeXml p.description ++ "</desc>\n"
      else "")
  ++ (match p.tmdb with
      | some t =>
        match t.seriesPoster with
        | some sp =>
          if sp != "" then "    <image src=\"" ++ escapeXml sp ++ "\" />\n" else ""
        | none => ""
      | none => "")

/-- `buildProgramme(programme)`: the `tmdb && tmdb.season && tmdb.episode`
truthiness gate (absent bag, `null`, and `0` are all falsy) selects the
enriched or the plain body. -/
def buildProgramme (p : Programme) : String :=
  "  <programme start=\"" ++ p.start ++ "\" stop=\"" ++ p.stop ++
    "\" channel=\"" ++ escapeXml p.channelId ++ "\">\n"
  ++ (match p.tmdb with
      | some t =>
        match t.season, t.episode with
        | some sn, some en =>
          if sn != 0 && en != 0 then enrichedBody p t sn en else plainBody p
        | _, _ => plainBody p
      | none => plainBody p)
  ++ "  </programme>\n"

/-! ## Statistics (`getStatistics` of `utils/convert.js`) -/

/-- The gate `prog.tmdb && prog.tmdb.season && prog.tmdb.episode` that
counts a programme as enriched in `getStatistics`. -/
def countsAsEnriched (p : Programme) : Bool :=
  match p.tmdb with
  | some t => numTruthy t.season && numTruthy t.episode
  | none => false

/-- Boolean lexicographic comparison of code-point lists — the JS `<` on
strings. -/
def lexLt : List Char → List Char → Bool
  | [], [] => false
  | [], _ :: _ => true
  | _ :: _, [] => false
  | a :: as, b :: bs => if a < b then true else if b < a then false else lexLt as bs

/-- JS string `<`. -/
def strLtB (a b : String) : Bool := lexLt a.toList b.toList

/-- The summary `getStatistics` returns (its `channels` set collapsed to its
size; the derived `enrichmentRate` display string is a formatted quotient of
`enriched` and `total` and is not modelled separately). -/
structure Statistics where
  total : Nat
  enriched : Nat
  channels : Nat
  dateStart : Option String
  dateEnd : Option String
deriving DecidableEq, Repr

/-- `Set.add`: insert if absent (iteration order preserved). -/
def setAdd (l : List String) (x : String) : List String :=
  if l.contains x then l else l ++ [x]

/-- Loop state of `getStatistics`. -/
structure StatsAcc where
  enriched : Nat
  channelSet : List String
  dateStart : Option String
  dateEnd : Option String

/-- One iteration of the `for (const prog of programmes)` loop of
`getStatistics`. -/
def statsStep (acc : StatsAcc) (p : Programme) : StatsAcc :=
  let acc1 :=
    if countsAsEnriched p then { acc with enriched := acc.enriched + 1 } else acc
  let acc2 :=
    if p.channelId != "" then { acc1 with channelSet := setAdd acc1.channelSet p.channelId }
    else acc1
  if p.start != "" then
    let startDate := p.start.take 8
    let acc3 :=
      match acc2.dateStart with
      | none => { acc2 with dateStart := some startDate }
      | some ds =>
        if strLtB startDate ds then { acc2 with dateStart := some startDate } else acc2
    match acc3.dateEnd with
    | none => { acc3 with dateEnd := some startDate }
    | some de =>
      if strLtB de startDate then { acc3 with dateEnd := some startDate } else acc3
  else acc2

/-- `getStatistics(programmes)`. -/
def getStatistics (programmes : List Programme) : Statistics :=
  let acc := programmes.foldl statsStep
    { enriched := 0, channelSet := [], dateStart := none, dateEnd := none }
  { total := programmes.length
    enriched := acc.enriched
    channels := acc.channelSet.length
    dateStart := acc.dateStart
    dateEnd := acc.dateEnd }

/-! ## Theorems -/

/-- The extractor loop is a capped positional map over the matches. -/
theorem extractGo_eq (cid : String) (ms : List RawMatch) : ∀ c : Nat,
    extractGo cid ms c = (ms.take (MAX_PROGRAMMES - c)).map (recordOfMatch cid) := by
  induction ms with
  | nil => intro c; simp [extractGo]
  | cons m rest ih =>
    intro c
    by_cases h : c < MAX_PROGRAMMES
    · have h1 : MAX_PROGRAMMES - c = (MAX_PROGRAMMES - (c + 1)) + 1 := by omega
      simp [extractGo, h, h1, ih]
    · have h1 : MAX_PROGRAMMES - c = 0 := by omega
      simp [extractGo, h, h1]

/-- Claim C8: for every raw payload and channel id, the Programme Extractor
returns at most the fixed per-channel ceiling of 50 records (exactly
`min length 50`, so no item within the cap is dropped), and every scheduled
item whose title is missing yields a record with the sentinel title
`"Unknown"` rather than being dropped. -/
theorem extract_cap_and_sentinel (ms : List RawMatch) (cid : String) :
    (extractProgrammes ms cid).length = min ms.length 50 ∧
    (extractProgrammes ms cid).length ≤ 50 ∧
    (∀ i : Nat, ∀ m : RawMatch, ∀ p : Programme,
      ms[i]? = some m → (extractProgrammes ms cid)[i]? = some p →
      m.titleMatch = none → p.title = "Unknown") := by
  have he : extractProgrammes ms cid =
      (ms.take MAX_PROGRAMMES).map (recordOfMatch cid) := by
    simpa using extractGo_eq cid ms 0
  have hlen : (extractProgrammes ms cid).length = min ms.length 50 := by
    rw [he]
    simp [MAX_PROGRAMMES, Nat.min_comm]
  refine ⟨hlen, by omega, ?_⟩
  intro i m p hm hp ht
  rw [he, List.getElem?_map, List.getElem?_take] at hp
  by_cases hiMP : i < MAX_PROGRAMMES
  · rw [if_pos hiMP, hm] at hp
    have hpm : p = recordOfMatch cid m := by simpa using hp.symm
    rw [hpm]
    simp [recordOfMatch, ht]
  · rw [if_neg hiMP] at hp
    simp at hp

/-- Witness for C8 at a concrete one-item payload with no title match. -/
theorem extract_cap_and_sentinel_witness :
    ([({ start := "s", stop := "t", titleMatch := none,
          descMatch := none } : RawMatch)][0]? =
        some { start := "s", stop := "t", titleMatch := none, descMatch := none }) ∧
    ((extractProgrammes
        [{ start := "s", stop := "t", titleMatch := none, descMatch := none }]
        "c")[0]?).map Programme.title = some "Unknown" := by
  constructor
  · rfl
  · have h := (extract_cap_and_sentinel
      [{ start := "s", stop := "t", titleMatch := none, descMatch := none }] "c").2.2
      0 { start := "s", stop := "t", titleMatch := none, descMatch := none }
      (recordOfMatch "c" { start := "s", stop := "t", titleMatch := none, descMatch := none })
      rfl rfl rfl
    simp [extractProgrammes, extractGo, MAX_PROGRAMMES, h]

/-- Claim C4: the read policy serves a fresh full tier unconditionally
(regardless of the partial tier's freshness or recency), serves the partial
tier exactly when the full tier is not fresh and the partial tier is, and
rebuilds exactly when neither is fresh. -/
theorem read_policy_precedence (st : Caches) (now : Int) :
    (readCachePolicy st now = .hitFull ↔
      slotFresh st.fullC FULL_CACHE_DURATION now = true) ∧
    (readCachePolicy st now = .hitPart ↔
      (slotFresh st.fullC FULL_CACHE_DURATION now = false ∧
       slotFresh st.partC PART_CACHE_DURATION now = true)) ∧
    (readCachePolicy st now = .rebuild ↔
      (slotFresh st.fullC FULL_CACHE_DURATION now = false ∧
       slotFresh st.partC PART_CACHE_DURATION now = false)) := by
  unfold readCachePolicy
  cases hf : slotFresh st.fullC FULL_CACHE_DURATION now <;>
    cases hp : slotFresh st.partC PART_CACHE_DURATION now <;> simp

/-- Witness for C4: a fresh full tier wins even against a strictly more
recently built, fresh partial tier. -/
theorem read_policy_precedence_witness :
    readCachePolicy
      { fullC := { data := some "F", timestamp := some 1,
                   channelCount := 90, programmeCount := 900 },
        partC := { data := some "P", timestamp := some 950000,
                   channelCount := 10, programmeCount := 100 } }
      1000000 = .hitFull :=
  (read_policy_precedence
    { fullC := { data := some "F", timestamp := some 1,
                 channelCount := 90, programmeCount := 900 },
      partC := { data := some "P", timestamp := some 950000,
                 channelCount := 10, programmeCount := 100 } }
    1000000).1.mpr (by decide)

/-- Claim C1: a rebuild whose coverage ratio meets the completeness
threshold (85 % in the hobby variant) overwrites the full tier and leaves
the partial tier unchanged; a rebuild below threshold overwrites the partial
tier only and leaves the full tier unchanged. -/
theorem rebuild_write_tier_frame (st : Caches) (n total : Nat) (xml : String)
    (sc stot : Nat) (bt : Int) (hpos : 0 < total) :
    ((n : ℚ) / (total : ℚ) ≥ 85 / 100 →
      (classifyAndStore st n total xml sc stot bt).fullC =
        { data := some xml, timestamp := some bt,
          channelCount := sc, programmeCount := stot } ∧
      (classifyAndStore st n total xml sc stot bt).partC = st.partC) ∧
    ((n : ℚ) / (total : ℚ) < 85 / 100 →
      (classifyAndStore st n total xml sc stot bt).partC =
        { data := some xml, timestamp := some bt,
          channelCount := sc, programmeCount := stot } ∧
      (classifyAndStore st n total xml sc stot bt).fullC = st.fullC) := by
  have htot : (0 : ℚ) < (total : ℚ) := by exact_mod_cast hpos
  have key : ((n : ℚ) ≥ (total : ℚ) * (85 / 100)) ↔
      ((n : ℚ) / (total : ℚ) ≥ 85 / 100) := by
    rw [ge_iff_le, ge_iff_le, le_div_iff₀ htot, mul_comm]
  constructor
  · intro h
    unfold classifyAndStore
    rw [if_pos (key.mpr h)]
    exact ⟨rfl, rfl⟩
  · intro h
    unfold classifyAndStore
    rw [if_neg (fun hc => absurd (key.mp hc) (not_le.mpr h))]
    exact ⟨rfl, rfl⟩

/-- Witness for C1 at the threshold boundary (17 of 20 channels, exactly
85 %): the full tier is written and the partial tier untouched. -/
theorem rebuild_write_tier_frame_witness :
    (classifyAndStore
        { fullC := { data := none, timestamp := none,
                     channelCount := 0, programmeCount := 0 },
          partC := { data := some "old", timestamp := some 1,
                     channelCount := 3, programmeCount := 30 } }
        17 20 "doc" 17 400 99).partC =
      { data := some "old", timestamp := some 1,
        channelCount := 3, programmeCount := 30 } :=
  ((rebuild_write_tier_frame
      { fullC := { data := none, timestamp := none,
                   channelCount := 0, programmeCount := 0 },
        partC := { data := some "old", timestamp := some 1,
                   channelCount := 3, programmeCount := 30 } }
      17 20 "doc" 17 400 99 (by norm_num)).1 (by norm_num)).2

/-- Counterexample to claim C2: a record classified as a series with
`season`/`episode` both `null` *does* acquire an enrichment object
(`programme.tmdb` with show id, show name and series poster) as soon as the
TMDB search succeeds — the partial bag is attached before the
season/episode gate. -/
theorem enrichment_gating_counterexample :
    (enrichWithTMDB
        { search := .ok (some { id := 1396, name := "Breaking Bad",
                                posterPath := some "/p.jpg" }),
          episode := .fail }
        { channelId := "c", start := "s", stop := "t",
          title := "Breaking Bad", description := "", tmdb := none }
        { isSeries := true, showName := "Breaking Bad",
          season := none, episode := none }).tmdb =
      some { showId := 1396, showName := "Breaking Bad",
             seriesPoster := some "https://image.tmdb.org/t/p/w500/p.jpg" } := by
  decide

/-- Claim C2 as amended: when the classifier result has `isSeries` true but
`season` or `episode` absent, the record may acquire a *partial* tmdb bag
(show id, show name, series poster) from a successful search, but the
episode-detail lookup is never issued and no episode-level field (`season`,
`episode`, `episodeName`, `overview`, `episodeThumbnail`) is ever
attached. -/
theorem enrichment_no_episode_fields (env : TMDBEnv) (p : Programme)
    (ai : AIResult) (h0 : p.tmdb = none)
    (h : ai.season = none ∨ ai.episode = none) :
    (enrichWithTMDBT env p ai).2 = false ∧
    (∀ t : Tmdb, (enrichWithTMDBT env p ai).1.tmdb = some t →
      t.season = none ∧ t.episode = none ∧ t.episodeName = none ∧
      t.overview = none ∧ t.episodeThumbnail = none) := by
  have hgate : (numTruthy ai.season && numTruthy ai.episode) = false := by
    rcases h with h | h <;> simp [numTruthy, h]
  unfold enrichWithTMDBT
  cases hI : ai.isSeries with
  | false =>
    refine ⟨by simp [tmdbKeyConfigured], fun t ht => ?_⟩
    simp [tmdbKeyConfigured, h0] at ht
  | true =>
    cases hS : env.search with
    | fail =>
      refine ⟨by simp [tmdbKeyConfigured], fun t ht => ?_⟩
      simp [tmdbKeyConfigured, h0] at ht
    | ok os =>
      cases os with
      | none =>
        refine ⟨by simp [tmdbKeyConfigured], fun t ht => ?_⟩
        simp [tmdbKeyConfigured, h0] at ht
      | some sh =>
        refine ⟨by simp [tmdbKeyConfigured, hgate], fun t ht => ?_⟩
        simp only [tmdbKeyConfigured, Bool.not_true, Bool.false_or, Bool.not_false,
          if_false, hgate, Bool.false_eq_true, Option.some.injEq] at ht
        rw [← ht]
        exact ⟨rfl, rfl, rfl, rfl, rfl⟩

/-- Witness for the amended C2: with a successful search and absent
season/episode, no episode-detail call is made. -/
theorem enrichment_no_episode_fields_witness :
    (enrichWithTMDBT
        { search := .ok (some { id := 1396, name := "Breaking Bad",
                                posterPath := some "/p.jpg" }),
          episode := .fail }
        { channelId := "c", start := "s", stop := "t",
          title := "Breaking Bad", description := "", tmdb := none }
        { isSeries := true, showName := "Breaking Bad",
          season := none, episode := none }).2 = false :=
  (enrichment_no_episode_fields
    { search := .ok (some { id := 1396, name := "Breaking Bad",
                            posterPath := some "/p.jpg" }),
      episode := .fail }
    { channelId := "c", start := "s", stop := "t",
      title := "Breaking Bad", description := "", tmdb := none }
    { isSeries := true, showName := "Breaking Bad",
      season := none, episode := none }
    rfl (Or.inl rfl)).1

/-- Claim C10: a classifier result with `season`/`episode` both the number 0
is treated exactly like one with both absent — the episode-detail lookup is
not made and the enrichment outcome is identical; a tmdb bag carrying
`season = episode = 0` serializes exactly like one with them absent (the
plain branch, no episode-number fields) and is not counted as enriched by
the statistics. -/
theorem zero_treated_as_null (env : TMDBEnv) (p : Programme) (ai : AIResult)
    (t : Tmdb) (hs : ai.season = some 0) (he : ai.episode = some 0)
    (ts : t.season = some 0) (te : t.episode = some 0) :
    enrichWithTMDBT env p ai =
      enrichWithTMDBT env p { ai with season := none, episode := none } ∧
    (enrichWithTMDBT env p ai).2 = false ∧
    buildProgramme { p with tmdb := some t } =
      buildProgramme { p with tmdb := some { t with season := none, episode := none } } ∧
    countsAsEnriched { p with tmdb := some t } = false ∧
    getStatistics [{ p with tmdb := some t }] =
      getStatistics [{ p with tmdb := some { t with season := none, episode := none } }] := by
  have hgate : (numTruthy ai.season && numTruthy ai.episode) = false := by
    simp [numTruthy, hs]
  have henr : enrichWithTMDBT env p ai =
      enrichWithTMDBT env p { ai with season := none, episode := none } := by
    unfold enrichWithTMDBT
    cases hI : ai.isSeries with
    | false => simp [tmdbKeyConfigured, hI]
    | true =>
      cases hS : env.search with
      | fail => simp [tmdbKeyConfigured, hI]
      | ok os =>
        cases os with
        | none => simp [tmdbKeyConfigured, hI]
        | some sh => simp [tmdbKeyConfigured, hI, hs, he, numTruthy]
  have hsecond : (enrichWithTMDBT env p ai).2 = false := by
    unfold enrichWithTMDBT
    cases hI : ai.isSeries with
    | false => simp [tmdbKeyConfigured, hI]
    | true =>
      cases hS : env.search with
      | fail => simp [tmdbKeyConfigured, hI]
      | ok os =>
        cases os with
        | none => simp [tmdbKeyConfigured, hI]
        | some sh => simp [tmdbKeyConfigured, hI, hgate]
  have hbuild : buildProgramme { p with tmdb := some t } =
      buildProgramme { p with tmdb := some { t with season := none, episode := none } } := by
    cases t
    simp only at ts te
    subst ts te
    simp [buildProgramme, plainBody]
  have hcount : countsAsEnriched { p with tmdb := some t } = false := by
    simp [countsAsEnriched, numTruthy, ts]
  have hstats : getStatistics [{ p with tmdb := some t }] =
      getStatistics [{ p with tmdb := some { t with season := none, episode := none } }] := by
    cases t
    simp only at ts te
    subst ts te
    simp [getStatistics, statsStep, countsAsEnriched, numTruthy]
  exact ⟨henr, hsecond, hbuild, hcount, hstats⟩

/-- Witness for C10 at a concrete record and classifier result with
`season = episode = 0`. -/
theorem zero_treated_as_null_witness :
    countsAsEnriched
      { channelId := "c", start := "20260129000000 +0000", stop := "s2",
        title := "T", description := "",
        tmdb := some { showId := 7, showName := "T",
                       seriesPoster := none, season := some 0,
                       episode := some 0 } } = false :=
  (zero_treated_as_null
    { search := .fail, episode := .fail }
    { channelId := "c", start := "20260129000000 +0000", stop := "s2",
      title := "T", description := "", tmdb := none }
    { isSeries := true, showName := "T", season := some 0, episode := some 0 }
    { showId := 7, showName := "T", seriesPoster := none,
      season := some 0, episode := some 0 }
    rfl rfl rfl rfl).2.2.2.1

/-- Theorem for the C6 code bug: the merge-back loop runs even when the
classifier's result array is shorter than the batch — with a 1-element
result array against a 2-record batch, the single result is merged
positionally onto the first record (no length or shape validation
exists in the source). -/
theorem misaligned_merge_executed :
    ((mergeAIResults
        (fun _ => { search := .ok (some { id := 42, name := "Some Show",
                                          posterPath := some "/q.jpg" }),
                    episode := .fail })
        [{ channelId := "a", start := "s1", stop := "t1",
           title := "First", description := "", tmdb := none },
         { channelId := "b", start := "s2", stop := "t2",
           title := "Second", description := "", tmdb := none }]
        [some { isSeries := true, showName := "Some Show",
                season := none, episode := none }]
        0).map Programme.tmdb =
      [some { showId := 42, showName := "Some Show",
              seriesPoster := some "https://image.tmdb.org/t/p/w500/q.jpg" },
       none]) ∧
    (([some { isSeries := true, showName := "Some Show",
              season := none, episode := none }] : List (Option AIResult)).length ≠
      ([{ channelId := "a", start := "s1", stop := "t1",
          title := "First", description := "", tmdb := none },
        { channelId := "b", start := "s2", stop := "t2",
          title := "Second", description := "", tmdb := none }] :
        List Programme).length) := by
  constructor
  · decide
  · decide

/-! ### Loader lemmas -/

/-- A successful fetch carries the `tvgId` it was issued for. -/
theorem fetch_fst (net : String → NetResult) (tv ep : String)
    (y : String × String) (h : fetchChannelEPG net tv ep = some y) : y.1 = tv := by
  unfold fetchChannelEPG at h
  cases hn : net ep with
  | err => rw [hn] at h; exact absurd h (by simp)
  | notOk => rw [hn] at h; exact absurd h (by simp)
  | ok xml =>
    rw [hn] at h
    simp at h
    rw [← h.2]

/-- Result-processing of one batch appends exactly the successful fetches. -/
theorem processBatch_results (net : String → NetResult) (now : Int) :
    ∀ (b : List (String × String)) (st : LoadState),
    (processBatch net now b st).results =
      st.results ++ b.filterMap (fun c => fetchChannelEPG net c.1 c.2) := by
  intro b
  induction b with
  | nil => intro st; simp [processBatch]
  | cons c cb ih =>
    intro st
    cases hf : fetchChannelEPG net c.1 c.2 with
    | none => simp [processBatch, hf, ih]
    | some r => simp [processBatch, hf, ih]

/-- Result-processing issues no rounds. -/
theorem processBatch_rounds (net : String → NetResult) (now : Int) :
    ∀ (b : List (String × String)) (st : LoadState),
    (processBatch net now b st).rounds = st.rounds := by
  intro b
  induction b with
  | nil => intro st; simp [processBatch]
  | cons c cb ih =>
    intro st
    cases hf : fetchChannelEPG net c.1 c.2 with
    | none => simp [processBatch, hf, ih]
    | some r => simp [processBatch, hf, ih]

/-- The keys of a batch's successful fetches form a sublist of the batch's
keys. -/
theorem succ_keys_sublist (net : String → NetResult) :
    ∀ b : List (String × String),
    ((b.filterMap fun c => fetchChannelEPG net c.1 c.2).map Prod.fst).Sublist
      (b.map Prod.fst) := by
  intro b
  induction b with
  | nil => simp
  | cons c cb ih =>
    cases hf : fetchChannelEPG net c.1 c.2 with
    | none =>
      simp only [List.filterMap_cons, hf, List.map_cons]
      exact ih.cons c.1
    | some r =>
      simp only [List.filterMap_cons, hf, List.map_cons]
      rw [fetch_fst net c.1 c.2 r hf]
      exact ih.cons₂ c.1

/-- `chunksGo` with enough fuel splits without losing or duplicating
elements. -/
theorem chunksGo_flatten (n : Nat) (hn : 1 ≤ n) :
    ∀ (fuel : Nat) (l : List α), l.length ≤ fuel →
    (chunksGo n fuel l).flatten = l := by
  intro fuel
  induction fuel with
  | zero =>
    intro l hl
    cases l with
    | nil => simp [chunksGo]
    | cons x xs => simp at hl
  | succ f ih =>
    intro l hl
    cases l with
    | nil => simp [chunksGo]
    | cons x xs =>
      simp only [chunksGo, List.flatten_cons]
      rw [ih ((x :: xs).drop n)
        (by
          simp only [List.length_drop, List.length_cons]
          simp only [List.length_cons] at hl
          omega)]
      exact List.take_append_drop n (x :: xs)

/-- `chunksOf` splits without losing or duplicating elements. -/
theorem chunksOf_flatten (n : Nat) (hn : 1 ≤ n) (l : List α) :
    (chunksOf n l).flatten = l :=
  chunksGo_flatten n hn l.length l le_rfl

/-- The cache-drain phase issues no rounds. -/
theorem drain_rounds (clock : Nat → Int) (startTime maxTime now : Int) :
    ∀ (chans : List (String × String)) (st : LoadState),
    (drain clock startTime maxTime now chans st).rounds = st.rounds := by
  intro chans
  induction chans with
  | nil => intro st; simp [drain]
  | cons c rest ih =>
    intro st
    cases hc : lookupEntry st.cache c.1 with
    | none => simp [drain, hc, ih]
    | some e =>
      by_cases ht : now - e.timestamp < CHANNEL_TTL
      · by_cases hb : 10 * (clock st.idx - startTime) > 3 * maxTime
        · simp [drain, hc, ht, hb]
        · simp [drain, hc, ht, hb, ih]
      · simp [drain, hc, ht, ih]

/-- The cache-drain phase does not modify the channel cache. -/
theorem drain_cache (clock : Nat → Int) (startTime maxTime now : Int) :
    ∀ (chans : List (String × String)) (st : LoadState),
    (drain clock startTime maxTime now chans st).cache = st.cache := by
  intro chans
  induction chans with
  | nil => intro st; simp [drain]
  | cons c rest ih =>
    intro st
    cases hc : lookupEntry st.cache c.1 with
    | none => simp [drain, hc, ih]
    | some e =>
      by_cases ht : now - e.timestamp < CHANNEL_TTL
      · by_cases hb : 10 * (clock st.idx - startTime) > 3 * maxTime
        · simp [drain, hc, ht, hb]
        · simp [drain, hc, ht, hb, ih]
      · simp [drain, hc, ht, ih]

/-- The cache-drain phase only appends to the gathered results. -/
theorem drain_results_mono (clock : Nat → Int) (startTime maxTime now : Int) :
    ∀ (chans : List (String × String)) (st : LoadState) (y : String × String),
    y ∈ st.results → y ∈ (drain clock startTime maxTime now chans st).results := by
  intro chans
  induction chans with
  | nil => intro st y hy; simpa [drain] using hy
  | cons c rest ih =>
    intro st y hy
    cases hc : lookupEntry st.cache c.1 with
    | none => simpa [drain, hc] using ih st y hy
    | some e =>
      by_cases ht : now - e.timestamp < CHANNEL_TTL
      · by_cases hb : 10 * (clock st.idx - startTime) > 3 * maxTime
        · simp [drain, hc, ht, hb]
          exact Or.inl hy
        · simp only [drain, hc, ht, if_pos rfl, hb]
          exact ih _ y (by simp [hy])
      · simpa [drain, hc, ht] using ih st y hy

/-- The keys of the cache-drain phase's results are a sublist of the
incoming keys followed by the drained channel list's keys. -/
theorem drain_results_keys (clock : Nat → Int) (startTime maxTime now : Int) :
    ∀ (chans : List (String × String)) (st : LoadState),
    ((drain clock startTime maxTime now chans st).results.map Prod.fst).Sublist
      (st.results.map Prod.fst ++ chans.map Prod.fst) := by
  intro chans
  induction chans with
  | nil => intro st; simp [drain]
  | cons c rest ih =>
    intro st
    have hw : (st.results.map Prod.fst ++ rest.map Prod.fst).Sublist
        (st.results.map Prod.fst ++ (c :: rest).map Prod.fst) := by
      simp only [List.map_cons]
      exact (List.append_sublist_append_left _).mpr (List.sublist_cons_self _ _)
    cases hc : lookupEntry st.cache c.1 with
    | none =>
      simp only [drain, hc]
      exact (ih st).trans hw
    | some e =>
      by_cases ht : now - e.timestamp < CHANNEL_TTL
      · by_cases hb : 10 * (clock st.idx - startTime) > 3 * maxTime
        · simp only [drain, hc, ht, if_pos rfl, if_pos hb, if_true,
            List.map_append, List.map_cons, List.map_nil]
          exact (List.append_sublist_append_left _).mpr
            ((List.nil_sublist _).cons₂ c.1)
        · simp only [drain, hc, ht, if_pos rfl, if_neg hb]
          have h2 := ih { st with results := st.results ++ [(c.1, e.xml)],
                                  idx := st.idx + 1 }
          simp only [List.map_append, List.map_cons, List.map_nil,
            List.append_assoc, List.singleton_append] at h2 ⊢
          exact h2
      · simp only [drain, hc, ht]
        rw [if_neg (by simp [ht])]
        exact (ih st).trans hw

/-- Every round issued by the inner batch loop was guarded by a clock read
within the fetch-stop bound, provided the incoming rounds were and the
guarding read was. -/
theorem runBatches_rounds_bound (net : String → NetResult) (clock : Nat → Int)
    (startTime maxTime now : Int) :
    ∀ (bs : List (List (String × String))) (lastRead : Int) (st : LoadState),
    (∀ r ∈ st.rounds, 10 * (r.issueTime - startTime) ≤ 7 * maxTime) →
    10 * (lastRead - startTime) ≤ 7 * maxTime →
    ∀ r ∈ (runBatches net clock startTime maxTime now bs lastRead st).rounds,
      10 * (r.issueTime - startTime) ≤ 7 * maxTime := by
  intro bs
  induction bs with
  | nil =>
    intro lastRead st h hl
    simpa [runBatches] using h
  | cons b bs ih =>
    intro lastRead st h hl
    have hst3 : ∀ st3 : LoadState,
        st3.rounds = st.rounds ++ [{ issueTime := lastRead, batch := b }] →
        ∀ r ∈ st3.rounds, 10 * (r.issueTime - startTime) ≤ 7 * maxTime := by
      intro st3 hr r hmem
      rw [hr] at hmem
      rcases List.mem_append.mp hmem with hm | hm
      · exact h r hm
      · rcases List.mem_singleton.mp hm with rfl
        exact hl
    simp only [runBatches]
    split
    · intro r hmem
      refine hst3 _ ?_ r hmem
      simp [processBatch_rounds]
    · next hb =>
      apply ih
      · intro r hmem
        refine hst3 _ ?_ r hmem
        simp [processBatch_rounds]
      · exact le_of_not_lt (by simpa using hb)

/-- Same bound through the outer chunk loop. -/
theorem runChunks_rounds_bound (net : String → NetResult) (clock : Nat → Int)
    (startTime maxTime now : Int) :
    ∀ (cs : List (List (String × String))) (st : LoadState),
    (∀ r ∈ st.rounds, 10 * (r.issueTime - startTime) ≤ 7 * maxTime) →
    ∀ r ∈ (runChunks net clock startTime maxTime now cs st).rounds,
      10 * (r.issueTime - startTime) ≤ 7 * maxTime := by
  intro cs
  induction cs with
  | nil =>
    intro st h
    simpa [runChunks] using h
  | cons c cs ih =>
    intro st h
    simp only [runChunks]
    split
    · simpa using h
    · next hb =>
      apply ih
      apply runBatches_rounds_bound net clock startTime maxTime now _ _ _
        (by simpa using h)
      exact le_of_not_lt (by simpa using hb)

/-- Every successful fetch of an issued round ends up in the loader's
results (the round's in-flight work is kept even when the time budget trips
afterwards). -/
theorem runBatches_kept (net : String → NetResult) (clock : Nat → Int)
    (startTime maxTime now : Int) :
    ∀ (bs : List (List (String × String))) (lastRead : Int) (st : LoadState),
    (∀ r ∈ st.rounds, ∀ c ∈ r.batch, ∀ y,
      fetchChannelEPG net c.1 c.2 = some y → y ∈ st.results) →
    ∀ r ∈ (runBatches net clock startTime maxTime now bs lastRead st).rounds,
      ∀ c ∈ r.batch, ∀ y, fetchChannelEPG net c.1 c.2 = some y →
      y ∈ (runBatches net clock startTime maxTime now bs lastRead st).results := by
  intro bs
  induction bs with
  | nil =>
    intro lastRead st h
    simpa [runBatches] using h
  | cons b bs ih =>
    intro lastRead st h
    have hstep : ∀ st3 : LoadState,
        st3.rounds = st.rounds ++ [{ issueTime := lastRead, batch := b }] →
        st3.results = st.results ++
          (b.filterMap fun c => fetchChannelEPG net c.1 c.2) →
        ∀ r ∈ st3.rounds, ∀ c ∈ r.batch, ∀ y,
          fetchChannelEPG net c.1 c.2 = some y → y ∈ st3.results := by
      intro st3 hr hres r hmem c hc y hy
      rw [hr] at hmem
      rw [hres]
      rcases List.mem_append.mp hmem with hm | hm
      · exact List.mem_append_left _ (h r hm c hc y hy)
      · rcases List.mem_singleton.mp hm with rfl
        exact List.mem_append_right _
          (List.mem_filterMap.mpr ⟨c, hc, hy⟩)
    simp only [runBatches]
    split
    · intro r hmem c hc y hy
      refine hstep _ ?_ ?_ r (by simpa using hmem) c hc y hy
      · simp [processBatch_rounds]
      · simp [processBatch_results]
    · intro r hmem c hc y hy
      refine ih _ _ ?_ r hmem c hc y hy
      intro r' hr' c' hc' y' hy'
      refine hstep _ ?_ ?_ r' (by simpa using hr') c' hc' y' hy'
      · simp [processBatch_rounds]
      · simp [processBatch_results]

/-- Same preservation through the outer chunk loop. -/
theorem runChunks_kept (net : String → NetResult) (clock : Nat → Int)
    (startTime maxTime now : Int) :
    ∀ (cs : List (List (String × String))) (st : LoadState),
    (∀ r ∈ st.rounds, ∀ c ∈ r.batch, ∀ y,
      fetchChannelEPG net c.1 c.2 = some y → y ∈ st.results) →
    ∀ r ∈ (runChunks net clock startTime maxTime now cs st).rounds,
      ∀ c ∈ r.batch, ∀ y, fetchChannelEPG net c.1 c.2 = some y →
      y ∈ (runChunks net clock startTime maxTime now cs st).results := by
  intro cs
  induction cs with
  | nil =>
    intro st h
    simpa [runChunks] using h
  | cons c cs ih =>
    intro st h
    simp only [runChunks]
    split
    · simpa using h
    · intro r hmem cc hcc y hy
      refine ih _ ?_ r hmem cc hcc y hy
      exact runBatches_kept net clock startTime maxTime now _ _ _
        (by simpa using h)

/-- The result keys gathered by the inner batch loop extend the incoming
keys by a sublist of the pending batches' keys. -/
theorem runBatches_results_keys (net : String → NetResult) (clock : Nat → Int)
    (startTime maxTime now : Int) :
    ∀ (bs : List (List (String × String))) (lastRead : Int) (st : LoadState),
    ((runBatches net clock startTime maxTime now bs lastRead st).results.map
      Prod.fst).Sublist
      (st.results.map Prod.fst ++ (bs.flatten.map Prod.fst)) := by
  intro bs
  induction bs with
  | nil => intro lastRead st; simp [runBatches]
  | cons b bs ih =>
    intro lastRead st
    have hsucc := succ_keys_sublist net b
    simp only [runBatches]
    split
    · have key : ((st.results.map Prod.fst) ++
          ((b.filterMap fun c => fetchChannelEPG net c.1 c.2).map Prod.fst)).Sublist
          ((st.results.map Prod.fst) ++
            (b.map Prod.fst ++ bs.flatten.map Prod.fst)) :=
        (List.append_sublist_append_left _).mpr
          (hsucc.trans (List.sublist_append_left _ _))
      simpa [processBatch_results] using key
    · refine List.Sublist.trans (ih _ _) ?_
      have key : (((st.results.map Prod.fst) ++
          ((b.filterMap fun c => fetchChannelEPG net c.1 c.2).map Prod.fst)) ++
            bs.flatten.map Prod.fst).Sublist
          ((st.results.map Prod.fst) ++
            (b.map Prod.fst ++ bs.flatten.map Prod.fst)) := by
        rw [List.append_assoc]
        exact (List.append_sublist_append_left _).mpr
          (hsucc.append (List.Sublist.refl _))
      simpa [processBatch_results] using key

/-- Same through the outer chunk loop. -/
theorem runChunks_results_keys (net : String → NetResult) (clock : Nat → Int)
    (startTime maxTime now : Int) :
    ∀ (cs : List (List (String × String))) (st : LoadState),
    ((runChunks net clock startTime maxTime now cs st).results.map
      Prod.fst).Sublist
      (st.results.map Prod.fst ++ (cs.flatten.map Prod.fst)) := by
  intro cs
  induction cs with
  | nil => intro st; simp [runChunks]
  | cons c cs ih =>
    intro st
    simp only [runChunks]
    split
    · simp
    · refine List.Sublist.trans (ih _) ?_
      have hb := runBatches_results_keys net clock startTime maxTime now
        (chunksOf BATCH_SIZE c) (clock st.idx) { st with idx := st.idx + 1 }
      rw [chunksOf_flatten BATCH_SIZE (by decide) c] at hb
      have key := hb.append (List.Sublist.refl (cs.flatten.map Prod.fst))
      rw [List.append_assoc] at key
      simpa using key

/-- Every round of the inner batch loop is either inherited or one of the
pending batches. -/
theorem runBatches_rounds_src (net : String → NetResult) (clock : Nat → Int)
    (startTime maxTime now : Int) :
    ∀ (bs : List (List (String × String))) (lastRead : Int) (st : LoadState),
    ∀ r ∈ (runBatches net clock startTime maxTime now bs lastRead st).rounds,
      r ∈ st.rounds ∨ r.batch ∈ bs := by
  intro bs
  induction bs with
  | nil =>
    intro lastRead st r hr
    exact Or.inl (by simpa [runBatches] using hr)
  | cons b bs ih =>
    intro lastRead st r hr
    have hstep : ∀ st3 : LoadState,
        st3.rounds = st.rounds ++ [{ issueTime := lastRead, batch := b }] →
        r ∈ st3.rounds → r ∈ st.rounds ∨ r.batch ∈ b :: bs := by
      intro st3 h3 hmem
      rw [h3] at hmem
      rcases List.mem_append.mp hmem with hm | hm
      · exact Or.inl hm
      · rcases List.mem_singleton.mp hm with rfl
        exact Or.inr (List.mem_cons_self _ _)
    simp only [runBatches] at hr
    split at hr
    · exact hstep _ (by simp [processBatch_rounds]) hr
    · rcases ih _ _ r hr with hm | hm
      · exact hstep _ (by simp [processBatch_rounds]) hm
      · exact Or.inr (List.mem_cons_of_mem _ hm)

/-- Every round of the outer chunk loop is either inherited or a batch of
one of the pending chunks. -/
theorem runChunks_rounds_src (net : String → NetResult) (clock : Nat → Int)
    (startTime maxTime now : Int) :
    ∀ (cs : List (List (String × String))) (st : LoadState),
    ∀ r ∈ (runChunks net clock startTime maxTime now cs st).rounds,
      r ∈ st.rounds ∨ ∃ c ∈ cs, r.batch ∈ chunksOf BATCH_SIZE c := by
  intro cs
  induction cs with
  | nil =>
    intro st r hr
    exact Or.inl (by simpa [runChunks] using hr)
  | cons c cs ih =>
    intro st r hr
    simp only [runChunks] at hr
    split at hr
    · exact Or.inl (by simpa using hr)
    · rcases ih _ r hr with hm | hm
      · rcases runBatches_rounds_src net clock startTime maxTime now _ _ _ r hm with
          hm2 | hm2
        · exact Or.inl (by simpa using hm2)
        · exact Or.inr ⟨c, List.mem_cons_self _ _, hm2⟩
      · rcases hm with ⟨c', hc', hb'⟩
        exact Or.inr ⟨c', List.mem_cons_of_mem _ hc', hb'⟩

/-- Every result gathered by the inner batch loop is inherited or a
successful fetch of a pending batch element. -/
theorem runBatches_results_src (net : String → NetResult) (clock : Nat → Int)
    (startTime maxTime now : Int) :
    ∀ (bs : List (List (String × String))) (lastRead : Int) (st : LoadState),
    ∀ y ∈ (runBatches net clock startTime maxTime now bs lastRead st).results,
      y ∈ st.results ∨
        ∃ c ∈ bs.flatten, fetchChannelEPG net c.1 c.2 = some y := by
  intro bs
  induction bs with
  | nil =>
    intro lastRead st y hy
    exact Or.inl (by simpa [runBatches] using hy)
  | cons b bs ih =>
    intro lastRead st y hy
    have hstep : ∀ st3 : LoadState,
        st3.results = st.results ++
          (b.filterMap fun c => fetchChannelEPG net c.1 c.2) →
        y ∈ st3.results →
        y ∈ st.results ∨
          ∃ c ∈ (b :: bs).flatten, fetchChannelEPG net c.1 c.2 = some y := by
      intro st3 h3 hmem
      rw [h3] at hmem
      rcases List.mem_append.mp hmem with hm | hm
      · exact Or.inl hm
      · rcases List.mem_filterMap.mp hm with ⟨c, hc, hf⟩
        exact Or.inr ⟨c, by simp [hc], hf⟩
    simp only [runBatches] at hy
    split at hy
    · exact hstep _ (by simp [processBatch_results]) hy
    · rcases ih _ _ y hy with hm | hm
      · exact hstep _ (by simp [processBatch_results]) hm
      · rcases hm with ⟨c, hc, hf⟩
        exact Or.inr ⟨c, by simp at hc ⊢; exact Or.inr hc, hf⟩

/-- Every result gathered by the outer chunk loop is inherited or a
successful fetch of a pending chunk element. -/
theorem runChunks_results_src (net : String → NetResult) (clock : Nat → Int)
    (startTime maxTime now : Int) :
    ∀ (cs : List (List (String × String))) (st : LoadState),
    ∀ y ∈ (runChunks net clock startTime maxTime now cs st).results,
      y ∈ st.results ∨
        ∃ c ∈ cs.flatten, fetchChannelEPG net c.1 c.2 = some y := by
  intro cs
  induction cs with
  | nil =>
    intro st y hy
    exact Or.inl (by simpa [runChunks] using hy)
  | cons c cs ih =>
    intro st y hy
    simp only [runChunks] at hy
    split at hy
    · exact Or.inl (by simpa using hy)
    · rcases ih _ y hy with hm | hm
      · rcases runBatches_results_src net clock startTime maxTime now _ _ _ y hm with
          hm2 | hm2
        · exact Or.inl (by simpa using hm2)
        · rcases hm2 with ⟨cc, hcc, hf⟩
          rw [chunksOf_flatten BATCH_SIZE (by decide) c] at hcc
          exact Or.inr ⟨cc, by simp [hcc], hf⟩
      · rcases hm with ⟨cc, hcc, hf⟩
        exact Or.inr ⟨cc, by simp at hcc ⊢; exact Or.inr hcc, hf⟩

/-- The concatenation of all issued batches of the inner loop extends the
inherited ones by a sublist of the pending batches. -/
theorem runBatches_issued (net : String → NetResult) (clock : Nat → Int)
    (startTime maxTime now : Int) :
    ∀ (bs : List (List (String × String))) (lastRead : Int) (st : LoadState),
    (((runBatches net clock startTime maxTime now bs lastRead st).rounds.map
        Round.batch).flatten).Sublist
      (((st.rounds.map Round.batch).flatten) ++ bs.flatten) := by
  intro bs
  induction bs with
  | nil => intro lastRead st; simp [runBatches]
  | cons b bs ih =>
    intro lastRead st
    simp only [runBatches]
    split
    · simp [processBatch_rounds]
    · refine List.Sublist.trans (ih _ _) ?_
      simp [processBatch_rounds]

/-- Same through the outer chunk loop. -/
theorem runChunks_issued (net : String → NetResult) (clock : Nat → Int)
    (startTime maxTime now : Int) :
    ∀ (cs : List (List (String × String))) (st : LoadState),
    (((runChunks net clock startTime maxTime now cs st).rounds.map
        Round.batch).flatten).Sublist
      (((st.rounds.map Round.batch).flatten) ++ cs.flatten) := by
  intro cs
  induction cs with
  | nil => intro st; simp [runChunks]
  | cons c cs ih =>
    intro st
    simp only [runChunks]
    split
    · simp
    · refine List.Sublist.trans (ih _) ?_
      have hb := runBatches_issued net clock startTime maxTime now
        (chunksOf BATCH_SIZE c) (clock st.idx) { st with idx := st.idx + 1 }
      rw [chunksOf_flatten BATCH_SIZE (by decide) c] at hb
      have key := hb.append (List.Sublist.refl cs.flatten)
      rw [List.append_assoc] at key
      simpa using key

/-- The keys of the channels with a defined upstream id form a sublist of
the registry's keys. -/
theorem channelsToFetch_keys (registry : List (String × Option String)) :
    ((channelsToFetch registry).map Prod.fst).Sublist
      (registry.map Prod.fst) := by
  induction registry with
  | nil => simp [channelsToFetch]
  | cons c rest ih =>
    cases h2 : c.2 with
    | none =>
      simp only [channelsToFetch, List.filterMap_cons, h2, List.map_cons]
      exact List.Sublist.cons c.1 ih
    | some e =>
      by_cases he : e != ""
      · simp only [channelsToFetch, List.filterMap_cons, h2, he, if_pos rfl,
          if_true, List.map_cons]
        exact List.Sublist.cons₂ c.1 ih
      · simp only [channelsToFetch, List.filterMap_cons, h2, he, List.map_cons]
        simp only [Bool.false_eq_true, if_false]
        exact List.Sublist.cons c.1 ih

/-- When the drain-phase time guard never trips, every channel whose cache
entry is live ends up drained into the results. -/
theorem drain_no_trip_pushes (clock : Nat → Int) (startTime maxTime now : Int)
    (hno : ∀ k, 10 * (clock k - startTime) ≤ 3 * maxTime) :
    ∀ (chans : List (String × String)) (st : LoadState) (p : String × String)
      (e : CacheEntry), p ∈ chans → lookupEntry st.cache p.1 = some e →
      now - e.timestamp < CHANNEL_TTL →
      p.1 ∈ (drain clock startTime maxTime now chans st).results.map Prod.fst := by
  intro chans
  induction chans with
  | nil =>
    intro st p e hp
    exact absurd hp (by simp)
  | cons q rest ih =>
    intro st p e hp he hfresh
    have hnb : ¬ (10 * (clock st.idx - startTime) > 3 * maxTime) :=
      not_lt.mpr (hno st.idx)
    rcases List.mem_cons.mp hp with rfl | hp
    · simp only [drain, he]
      rw [if_pos hfresh, if_neg hnb]
      have hmono := drain_results_mono clock startTime maxTime now rest
        { st with results := st.results ++ [(p.1, e.xml)], idx := st.idx + 1 }
        (p.1, e.xml) (by simp)
      exact List.mem_map.mpr ⟨(p.1, e.xml), hmono, rfl⟩
    · cases hq : lookupEntry st.cache q.1 with
      | none =>
        simp only [drain, hq]
        exact ih st p e hp he hfresh
      | some eq' =>
        by_cases ht : now - eq'.timestamp < CHANNEL_TTL
        · simp only [drain, hq]
          rw [if_pos ht, if_neg hnb]
          exact ih _ p e hp (by simpa using he) hfresh
        · simp only [drain, hq]
          rw [if_neg ht]
          exact ih st p e hp he hfresh

/-- Claim C3: for every registry, cache state, upstream behaviour and clock
trace, every fetch round the loader issues is guarded by a clock read whose
elapsed time is within the fetch-stop fraction (70 %) of the maximum
duration — once an elapsed-time check observes more than
`0.7 * maxDuration`, no further chunk or batch is issued — and the
successful fetches of every issued (in-flight) round are kept in the
output. -/
theorem budget_no_round_after_stop (registry : List (String × Option String))
    (chCache : List (String × CacheEntry)) (net : String → NetResult)
    (clock : Nat → Int) (startTime maxTime : Int) :
    (∀ r ∈ (loadChannelsProgressively registry chCache net clock
        startTime maxTime).rounds,
      10 * (r.issueTime - startTime) ≤ 7 * maxTime) ∧
    (∀ r ∈ (loadChannelsProgressively registry chCache net clock
        startTime maxTime).rounds,
      ∀ c ∈ r.batch, ∀ y, fetchChannelEPG net c.1 c.2 = some y →
        y ∈ (loadChannelsProgressively registry chCache net clock
          startTime maxTime).results) := by
  simp only [loadChannelsProgressively]
  constructor
  · apply runChunks_rounds_bound
    intro r hr
    rw [drain_rounds] at hr
    exact absurd hr (by simp)
  · apply runChunks_kept
    intro r hr
    rw [drain_rounds] at hr
    exact absurd hr (by simp)

/-- Witness for C3: a concrete cold run that issues one round, at elapsed
time 0 within the 70 % budget bound. -/
theorem budget_no_round_after_stop_witness :
    (({ issueTime := 0, batch := [("c1", "e1")] } : Round) ∈
      (loadChannelsProgressively [("c1", some "e1")] [] (fun _ => .notOk)
        (fun _ => 0) 0 1000).rounds) ∧
    10 * ((0 : Int) - 0) ≤ 7 * 1000 :=
  ⟨by decide,
   (budget_no_round_after_stop [("c1", some "e1")] [] (fun _ => .notOk)
      (fun _ => 0) 0 1000).1
     { issueTime := 0, batch := [("c1", "e1")] } (by decide)⟩

/-- Claim C9: for every registry with distinct channel ids, the loader's
output contains no channel id twice and its length never exceeds the count
of registry channels with a defined (non-null, non-empty) upstream id. -/
theorem loader_output_bounded (registry : List (String × Option String))
    (chCache : List (String × CacheEntry)) (net : String → NetResult)
    (clock : Nat → Int) (startTime maxTime : Int)
    (hnd : (registry.map Prod.fst).Nodup) :
    ((loadChannelsProgressively registry chCache net clock
        startTime maxTime).results.map Prod.fst).Nodup ∧
    (loadChannelsProgressively registry chCache net clock
        startTime maxTime).results.length ≤
      (channelsToFetch registry).length := by
  have hchnd : ((channelsToFetch registry).map Prod.fst).Nodup :=
    (channelsToFetch_keys registry).nodup hnd
  simp only [loadChannelsProgressively]
  set st1 := drain clock startTime maxTime (clock 0) (channelsToFetch registry)
    { results := [], rounds := [], cache := chCache, idx := 1 } with hst1
  set remaining := (channelsToFetch registry).filter
    (fun c => !(st1.results.any fun r => r.1 == c.1)) with hrem
  have h1 : (st1.results.map Prod.fst).Sublist
      ((channelsToFetch registry).map Prod.fst) := by
    have := drain_results_keys clock startTime maxTime (clock 0)
      (channelsToFetch registry)
      { results := [], rounds := [], cache := chCache, idx := 1 }
    simpa [hst1] using this
  have hremsub : (remaining.map Prod.fst).Sublist
      ((channelsToFetch registry).map Prod.fst) :=
    (List.filter_sublist _).map Prod.fst
  have hdisj : List.Disjoint (st1.results.map Prod.fst)
      (remaining.map Prod.fst) := by
    intro a ha hb
    rcases List.mem_map.mp hb with ⟨c, hc, rfl⟩
    rcases List.mem_map.mp ha with ⟨y, hy, hya⟩
    have hpred := (List.mem_filter.mp hc).2
    rw [Bool.not_eq_eq_eq_not, Bool.not_true, List.any_eq_false] at hpred
    exact absurd (by simpa using hya) (by simpa using hpred y hy)
  have hbig : ((st1.results.map Prod.fst) ++ (remaining.map Prod.fst)).Nodup :=
    (h1.nodup hchnd).append (hremsub.nodup hchnd) hdisj
  have hout : ((runChunks net clock startTime maxTime (clock 0)
      (chunksOf CHANNELS_PER_CHUNK remaining) st1).results.map Prod.fst).Sublist
      ((st1.results.map Prod.fst) ++ (remaining.map Prod.fst)) := by
    have := runChunks_results_keys net clock startTime maxTime (clock 0)
      (chunksOf CHANNELS_PER_CHUNK remaining) st1
    rwa [chunksOf_flatten CHANNELS_PER_CHUNK (by decide) remaining] at this
  have houtnd := hout.nodup hbig
  refine ⟨houtnd, ?_⟩
  have hsubset : ((runChunks net clock startTime maxTime (clock 0)
      (chunksOf CHANNELS_PER_CHUNK remaining) st1).results.map Prod.fst) ⊆
      ((channelsToFetch registry).map Prod.fst) := by
    intro a ha
    rcases List.mem_append.mp (hout.subset ha) with hm | hm
    · exact h1.subset hm
    · exact hremsub.subset hm
  have hsp := List.subperm_of_subset houtnd hsubset
  have hlen := hsp.length_le
  simpa using hlen

/-- Witness for C9 on a concrete registry with one valid and one
upstream-less channel. -/
theorem loader_output_bounded_witness :
    ((loadChannelsProgressively [("a", some "e1"), ("b", none)] []
        (fun _ => .notOk) (fun _ => 0) 0 1000).results.map Prod.fst).Nodup ∧
    (loadChannelsProgressively [("a", some "e1"), ("b", none)] []
        (fun _ => .notOk) (fun _ => 0) 0 1000).results.length ≤
      (channelsToFetch [("a", some "e1"), ("b", none)]).length :=
  loader_output_bounded [("a", some "e1"), ("b", none)] []
    (fun _ => .notOk) (fun _ => 0) 0 1000 (by decide)

/-- Every channel of an issued fetch round passed the remaining-channels
filter: it was not already drained from the channel cache. -/
theorem loader_round_channels (registry : List (String × Option String))
    (chCache : List (String × CacheEntry)) (net : String → NetResult)
    (clock : Nat → Int) (startTime maxTime : Int) :
    ∀ r ∈ (loadChannelsProgressively registry chCache net clock
        startTime maxTime).rounds, ∀ c ∈ r.batch,
      c ∈ (channelsToFetch registry).filter
        (fun c => !((drain clock startTime maxTime (clock 0)
            (channelsToFetch registry)
            { results := [], rounds := [], cache := chCache,
              idx := 1 }).results.any fun r => r.1 == c.1)) := by
  simp only [loadChannelsProgressively]
  set st1 := drain clock startTime maxTime (clock 0) (channelsToFetch registry)
    { results := [], rounds := [], cache := chCache, idx := 1 } with hst1
  set remaining := (channelsToFetch registry).filter
    (fun c => !(st1.results.any fun r => r.1 == c.1)) with hrem
  intro r hr c hc
  have hst1rounds : st1.rounds = [] := by rw [hst1, drain_rounds]
  rcases runChunks_rounds_src net clock startTime maxTime (clock 0) _ _ r hr with
    hm | ⟨ch, hch, hb⟩
  · rw [hst1rounds] at hm
    exact absurd hm (by simp)
  · have hcch : c ∈ ch := by
      have hf : c ∈ (chunksOf BATCH_SIZE ch).flatten :=
        List.mem_flatten.mpr ⟨r.batch, hb, hc⟩
      rwa [chunksOf_flatten BATCH_SIZE (by decide)] at hf
    have hf2 : c ∈ (chunksOf CHANNELS_PER_CHUNK remaining).flatten :=
      List.mem_flatten.mpr ⟨ch, hch, hcch⟩
    rwa [chunksOf_flatten CHANNELS_PER_CHUNK (by decide)] at hf2

/-- Claim C7: with distinct registry keys, a failed channel fetch (timeout,
non-success status, or payload without the root marker — all `none` in the
model) contributes no entry for that channel to the loader's output, is not
retried in the same invocation (each channel appears in at most one issued
round), and the remaining channels' successful fetches are all kept (the
loader itself never raises: it is a total function into a result list). -/
theorem fetch_failure_isolated (registry : List (String × Option String))
    (chCache : List (String × CacheEntry)) (net : String → NetResult)
    (clock : Nat → Int) (startTime maxTime : Int)
    (hnd : (registry.map Prod.fst).Nodup) :
    (∀ r ∈ (loadChannelsProgressively registry chCache net clock
        startTime maxTime).rounds, ∀ c ∈ r.batch,
      fetchChannelEPG net c.1 c.2 = none →
      ∀ xml, (c.1, xml) ∉ (loadChannelsProgressively registry chCache net clock
        startTime maxTime).results) ∧
    (∀ tv, ((((loadChannelsProgressively registry chCache net clock
        startTime maxTime).rounds.map Round.batch).flatten).map
          Prod.fst).count tv ≤ 1) ∧
    (∀ r ∈ (loadChannelsProgressively registry chCache net clock
        startTime maxTime).rounds, ∀ c ∈ r.batch, ∀ y,
      fetchChannelEPG net c.1 c.2 = some y →
      y ∈ (loadChannelsProgressively registry chCache net clock
        startTime maxTime).results) := by
  have hchnd : ((channelsToFetch registry).map Prod.fst).Nodup :=
    (channelsToFetch_keys registry).nodup hnd
  have hbm := loader_round_channels registry chCache net clock startTime maxTime
  refine ⟨?_, ?_, ?_⟩
  · intro r hr c hc hfail xml hmem
    have hcrem := hbm r hr c hc
    have hremnd : ((((channelsToFetch registry)).filter
        (fun c => !((drain clock startTime maxTime (clock 0)
            (channelsToFetch registry)
            { results := [], rounds := [], cache := chCache,
              idx := 1 }).results.any fun r => r.1 == c.1))).map
          Prod.fst).Nodup :=
      ((List.filter_sublist _).map Prod.fst).nodup hchnd
    have hpred := (List.mem_filter.mp hcrem).2
    rw [Bool.not_eq_eq_eq_not, Bool.not_true, List.any_eq_false] at hpred
    simp only [loadChannelsProgressively] at hmem
    rcases runChunks_results_src net clock startTime maxTime (clock 0) _ _ _
      hmem with hm | ⟨c', hc', hf⟩
    · have hx := hpred (c.1, xml) hm
      simp at hx
    · rw [chunksOf_flatten CHANNELS_PER_CHUNK (by decide)] at hc'
      have hkey : c.1 = c'.1 := fetch_fst net c'.1 c'.2 (c.1, xml) hf
      have hcc : c' = c :=
        List.inj_on_of_nodup_map hremnd hc' hcrem hkey.symm
      rw [hcc] at hf
      rw [hfail] at hf
      exact absurd hf (by simp)
  · intro tv
    simp only [loadChannelsProgressively]
    set st1 := drain clock startTime maxTime (clock 0) (channelsToFetch registry)
      { results := [], rounds := [], cache := chCache, idx := 1 } with hst1
    set remaining := (channelsToFetch registry).filter
      (fun c => !(st1.results.any fun r => r.1 == c.1)) with hrem
    have hremnd : (remaining.map Prod.fst).Nodup :=
      ((List.filter_sublist _).map Prod.fst).nodup hchnd
    have hst1rounds : st1.rounds = [] := by rw [hst1, drain_rounds]
    have hiss := runChunks_issued net clock startTime maxTime (clock 0)
      (chunksOf CHANNELS_PER_CHUNK remaining) st1
    rw [hst1rounds, chunksOf_flatten CHANNELS_PER_CHUNK (by decide)] at hiss
    simp only [List.map_nil, List.flatten_nil, List.nil_append] at hiss
    have hsub := hiss.map Prod.fst
    have hnd2 := hsub.nodup hremnd
    exact List.nodup_iff_count_le_one.mp hnd2 tv
  · simp only [loadChannelsProgressively]
    apply runChunks_kept
    intro r hr
    rw [drain_rounds] at hr
    exact absurd hr (by simp)

/-- Witness for C7: a concrete run where the only channel's fetch returns a
non-success status — the output contains no entry for it. -/
theorem fetch_failure_isolated_witness :
    ("c1", "x") ∉ (loadChannelsProgressively [("c1", some "e1")] []
      (fun _ => .notOk) (fun _ => 0) 0 1000).results :=
  (fetch_failure_isolated [("c1", some "e1")] [] (fun _ => .notOk)
      (fun _ => 0) 0 1000 (by decide)).1
    { issueTime := 0, batch := [("c1", "e1")] } (by decide)
    ("c1", "e1") (by decide) (by decide) "x"

/-- Counterexample to claim C5: with two channels both holding fresh
channel-cache entries at rebuild start, a clock trace that trips the 30 %
cache-drain guard after the first drained channel leaves the second channel
undrained, and the fresh-fetch phase then issues an upstream fetch round
for it — a channel whose cache entry is younger than the TTL at rebuild
start *is* fetched fresh in the same rebuild. -/
theorem cache_hit_refetch_counterexample :
    (lookupEntry [("c1", { xml := "<tv>a</tv>", timestamp := 0 }),
        ("c2", { xml := "<tv>b</tv>", timestamp := 0 })] "c2" =
      some { xml := "<tv>b</tv>", timestamp := 0 }) ∧
    ((fun i => if i = 1 then (2000 : Int) else if i = 2 then 2000 else 0) 0) -
      (0 : Int) < CHANNEL_TTL ∧
    (loadChannelsProgressively
        [("c1", some "e1"), ("c2", some "e2")]
        [("c1", { xml := "<tv>a</tv>", timestamp := 0 }),
         ("c2", { xml := "<tv>b</tv>", timestamp := 0 })]
        (fun _ => .notOk)
        (fun i => if i = 1 then (2000 : Int) else if i = 2 then 2000 else 0)
        0 5000).rounds =
      [{ issueTime := 2000, batch := [("c2", "e2")] }] := by
  refine ⟨by decide, by decide, by decide⟩

/-- Claim C5 as amended: when the cache-drain guard never trips during the
invocation (elapsed time stays within the 30 % drain fraction at every
read), every channel whose Channel-Level Cache entry is younger than the
channel TTL at the start of the rebuild is drained from cache and no fresh
upstream fetch round contains it. -/
theorem cache_hit_no_refetch_when_drain_completes
    (registry : List (String × Option String))
    (chCache : List (String × CacheEntry)) (net : String → NetResult)
    (clock : Nat → Int) (startTime maxTime : Int) (tv : String)
    (e : CacheEntry) (hc : lookupEntry chCache tv = some e)
    (hfresh : clock 0 - e.timestamp < CHANNEL_TTL)
    (hmem : tv ∈ (channelsToFetch registry).map Prod.fst)
    (hno : ∀ k, 10 * (clock k - startTime) ≤ 3 * maxTime) :
    ∀ r ∈ (loadChannelsProgressively registry chCache net clock
        startTime maxTime).rounds, ∀ c ∈ r.batch, c.1 ≠ tv := by
  intro r hr c hcb heq
  have hcrem := loader_round_channels registry chCache net clock startTime
    maxTime r hr c hcb
  have hpred := (List.mem_filter.mp hcrem).2
  rw [Bool.not_eq_eq_eq_not, Bool.not_true, List.any_eq_false] at hpred
  have hdrained : tv ∈ (drain clock startTime maxTime (clock 0)
      (channelsToFetch registry)
      { results := [], rounds := [], cache := chCache,
        idx := 1 }).results.map Prod.fst := by
    rcases List.mem_map.mp hmem with ⟨p, hp, rfl⟩
    exact drain_no_trip_pushes clock startTime maxTime (clock 0) hno _ _ p e
      hp (by simpa using hc) hfresh
  rcases List.mem_map.mp hdrained with ⟨y, hy, hytv⟩
  have hx := hpred y hy
  rw [heq] at hx
  simp [hytv] at hx

/-- Witness for the amended C5: with a never-tripping clock, the cached
channel is not in the issued round while the uncached one is. -/
theorem cache_hit_no_refetch_witness : ("c2" : String) ≠ "c1" :=
  cache_hit_no_refetch_when_drain_completes
    [("c1", some "e1"), ("c2", some "e2")]
    [("c1", { xml := "<tv>a</tv>", timestamp := 0 })]
    (fun _ => .notOk) (fun _ => 0) 0 5000 "c1"
    { xml := "<tv>a</tv>", timestamp := 0 } (by decide) (by decide)
    (by decide) (fun _ => by norm_num)
    { issueTime := 0, batch := [("c2", "e2")] } (by decide)
    ("c2", "e2") (by decide)

